import Mathlib

/-!
Verification development for the Tyopaikka-tutka job-discovery crawler.

This file shallowly embeds the crawler core of `src/apprscan/jobs/`
(`robots.py`, `fetch.py`, `extract/generic_html.py`, `pipeline.py`) plus the
legacy robots helper in `src/apprscan/jobs.py`, and proves properties of the
embedding.  Python strings are modelled as `String` (or `List Char` where
character-level processing matters), mutable state is threaded explicitly,
file I/O is modelled by passing the file contents as values, and the
behaviour of library calls that the repository relies on
(`urllib.robotparser.RobotFileParser`, CPython `hash`) is embedded from
their documented/inspected semantics.  Modules of the repository that are
imported by `pipeline.py` but are not present under `src/`
(`constants.py`, `model.py`, `ats.py`, `discovery.py`, `tagging.py`, the
JSON-LD extractor) are modelled as oracle functions carried in an
environment record, or — where a single constant decides a claim — are
modelled from the specification and marked as such.
-/

namespace Apprscan

/-! ## Python-style helpers -/

/-- Python truthiness of an optional string: `None` and `""` are falsy. -/
def pyTruthy (o : Option String) : Bool :=
  match o with
  | none => false
  | some s => s ≠ ""

/-- Python `a or b` for two optional strings (`a` kept unless falsy). -/
def pyOrOpt (a b : Option String) : Option String :=
  match a with
  | none => b
  | some s => if s = "" then b else some s

/-- Python `a or b` where `b` is a plain string. -/
def pyOrStr (a : Option String) (b : String) : String :=
  match a with
  | none => b
  | some s => if s = "" then b else s

/-- The whitespace class of Python's `str.strip` / `re` `\s` on the
characters that occur in this code base (space, tab, newline, carriage
return, vertical tab, form feed). -/
def pySpace (c : Char) : Bool :=
  c = ' ' || c = '\t' || c = '\n' || c = '\r' || c = '\x0b' || c = '\x0c'

/-- Python `str.lower` character-wise (ASCII, which is what the embedded
comparisons rely on). -/
def pyLower (c : Char) : Char := c.toLower

/-- Lowercase a character list. -/
def lowerL (s : List Char) : List Char := s.map pyLower

/-- Remove trailing characters satisfying `p` (used for `str.strip`'s
right side and for `rstrip("/")`). -/
def stripTrailingBy (p : Char → Bool) (s : List Char) : List Char :=
  s.foldr (fun c acc => if p c && acc.isEmpty then [] else c :: acc) []

/-- Python `str.strip()` : drop leading and trailing whitespace. -/
def pyStrip (s : List Char) : List Char :=
  stripTrailingBy pySpace (s.dropWhile pySpace)

/-- Single pass of `re.sub(r"\s+", " ", s)` : the flag records whether the
previous character was whitespace, so each maximal whitespace run emits
exactly one space at its first character. -/
def collapseAux : Bool → List Char → List Char
  | _, [] => []
  | prevSpace, c :: rest =>
    if pySpace c then
      if prevSpace then collapseAux true rest else ' ' :: collapseAux true rest
    else c :: collapseAux false rest

/-- `re.sub(r"\s+", " ", s)` : replace every maximal whitespace run by a
single space. -/
def collapseWs (s : List Char) : List Char := collapseAux false s

/-- The whitespace-separated words of a string (accumulator holds the
current word reversed).  Used to state whitespace/case insensitivity. -/
def wordsAux : List Char → List Char → List (List Char)
  | cur, [] => if cur.isEmpty then [] else [cur.reverse]
  | cur, c :: rest =>
    if pySpace c then
      if cur.isEmpty then wordsAux [] rest else cur.reverse :: wordsAux [] rest
    else wordsAux (c :: cur) rest

/-- Join words with single spaces. -/
def joinW : List (List Char) → List Char
  | [] => []
  | [w] => w
  | w :: ws => w ++ ' ' :: joinW ws

/-- `true` iff the last character exists and is whitespace (strings with
this `false` are exactly the right-stripped ones). -/
def endsInSpace : List Char → Bool
  | [] => false
  | [c] => pySpace c
  | _ :: rest => endsInSpace rest

/-- `true` iff the first character exists and is whitespace. -/
def headSpaceB : List Char → Bool
  | [] => false
  | c :: _ => pySpace c

/-- Does `s` start with `pat`? (Python `startswith`, used for substring
search.) -/
def startsWithL : List Char → List Char → Bool
  | _, [] => true
  | [], _ :: _ => false
  | c :: s, d :: pat => c = d && startsWithL s pat

/-- Python `pat in s` : substring containment. -/
def hasSub (pat : List Char) : List Char → Bool
  | [] => startsWithL [] pat
  | c :: rest => startsWithL (c :: rest) pat || hasSub pat rest

/-- Python `s.replace(pat, "")` for a non-empty pattern: delete every
(left-to-right, non-overlapping) occurrence of `pat`. -/
def replaceDrop (pat : List Char) (s : List Char) : List Char :=
  match s with
  | [] => []
  | c :: rest =>
    if h : startsWithL (c :: rest) pat = true ∧ pat ≠ [] then
      replaceDrop pat ((c :: rest).drop pat.length)
    else
      c :: replaceDrop pat rest
termination_by s.length
decreasing_by
  · rcases h with ⟨_, hne⟩
    have hlen : 0 < pat.length := List.length_pos.mpr hne
    simp only [List.length_drop, List.length_cons]
    omega
  · simp

/-! ## Robots gate — `src/apprscan/jobs/robots.py` and the legacy
`can_fetch` in `src/apprscan/jobs.py`.

`urllib.robotparser.RobotFileParser` semantics (embedded from the stdlib
source, which the repository relies on):
  * `read()` fetches the robots URL.  An HTTP 401/403 sets
    `disallow_all`; any other 4xx sets `allow_all`; a swallowed 5xx
    `HTTPError` sets neither flag and leaves the parser unparsed; a
    network-level error (`URLError`, DNS, …) propagates as an exception.
  * `parse(lines)` marks the parser as parsed (`modified()`) and only
    builds rule entries; it never sets `disallow_all` or `allow_all`.
  * `can_fetch(ua, url)`: `disallow_all → False`; then `allow_all →
    True`; then unparsed (`last_checked == 0`) → `False`; otherwise the
    parsed rule entries decide (modelled as a decision function, with
    "no matching entry" folded into the function's value `true`).
-/

/-- State of a `RobotFileParser` after the repository's code has set it
up.  `err` models the `apprscan_error` attribute set by
`RobotsChecker._fetch_parser`. -/
structure RobotsParser where
  err : Option String
  disallowAll : Bool
  allowAll : Bool
  parsed : Bool
  entries : String → Bool

/-- Outcome of fetching `https://{domain}/robots.txt`, as seen by
`RobotFileParser.read()`. `content e` is a successfully fetched and parsed
rules file whose rule entries give decision function `e`; `httpError c`
is an `HTTPError` with status `c` (swallowed by `read`); `ioError` is a
network-level failure that `read` re-raises. -/
inductive ReadOutcome where
  | content (e : String → Bool)
  | httpError (code : Nat)
  | ioError

/-- `RobotFileParser.can_fetch` (stdlib). -/
def stdCanFetch (p : RobotsParser) (url : String) : Bool :=
  if p.disallowAll then false
  else if p.allowAll then true
  else if !p.parsed then false
  else p.entries url

/-- Parser state produced by a bare `set_url`/`read()` call that does not
raise (stdlib `read` semantics above). -/
def readParser (o : ReadOutcome) : RobotsParser :=
  match o with
  | .content e => ⟨none, false, false, true, e⟩
  | .httpError c =>
    if c = 401 ∨ c = 403 then ⟨none, true, false, false, fun _ => true⟩
    else if 400 ≤ c ∧ c < 500 then ⟨none, false, true, false, fun _ => true⟩
    else ⟨none, false, false, false, fun _ => true⟩
  | .ioError => ⟨none, false, false, false, fun _ => true⟩

/-- `RobotsChecker._fetch_parser` (robots.py lines 15–25): on an
exception from `read()` the parser is replaced by one parsed from
`["User-agent: *", "Disallow: /"]` (whose entries deny every URL) and the
`apprscan_error` attribute is set to `"robots_unavailable"`. -/
def robotsFetchParser (o : ReadOutcome) : RobotsParser :=
  match o with
  | .ioError => ⟨some "robots_unavailable", false, false, true, fun _ => false⟩
  | _ => readParser o

/-- `RobotsChecker.can_fetch_detail` (robots.py lines 37–48) applied to
the cached parser of the URL's domain. -/
def canFetchDetailP (p : RobotsParser) (url : String) : Bool × Option String :=
  if p.err = some "robots_unavailable" then (false, some "robots_unavailable")
  else if p.disallowAll then (false, some "Disallow: /")
  else if stdCanFetch p url then (true, none)
  else (false, some "blocked_by_robots")

/-- Legacy `can_fetch` of `src/apprscan/jobs.py` (lines 192–205): on an
exception from `read()` it replaces the parser by `parse("")` — an empty
parsed rule set, i.e. allow-all — and then answers
`parser.can_fetch("*", url)`. -/
def legacyCanFetch (o : ReadOutcome) (url : String) : Bool :=
  let parser :=
    match o with
    | .ioError => (⟨none, false, false, true, fun _ => true⟩ : RobotsParser)
    | _ => readParser o
  stdCanFetch parser url

/-! ## Fetch layer — `src/apprscan/jobs/fetch.py` -/

/-- The pieces of a `FetchResult` used by the pipeline (fetch.py lines
17–23; the `headers` dict is never consulted downstream and is omitted). -/
structure FetchResult where
  status : Nat
  final_url : String
  html : String
deriving DecidableEq

/-- One attempt of `session.get` as seen by `fetch_url`'s loop: either a
`requests.RequestException` or a response with status, final URL (after
redirects), text and byte length. -/
inductive NetAttempt where
  | exn
  | resp (status : Nat) (finalUrl : String) (html : String) (contentLen : Nat)

/-- `_should_retry` (fetch.py lines 25–26). -/
def shouldRetry (status : Nat) : Bool :=
  status == 429 || (500 ≤ status && status < 600)

/-- The retry loop of `fetch_url` (fetch.py lines 55–94).  `net n` is what
the `n`-th `session.get` call yields; `attempt` and `backoff` are the loop
variables (entering with `attempt = 0`, `backoff = 1.0`); `remaining`
counts `max_retries - attempt`, so the `while attempt < max_retries`
guard is "`remaining > 0`" (first pattern) and the
`attempt < max_retries - 1` retry guard is "`remaining > 1`".  `sleeps`
records every `time.sleep(backoff)` performed, so the backoff schedule is
part of the observable result; backoff delays are the exact powers of two
produced by doubling the float `1.0`. -/
def fetchLoop (net : Nat → NetAttempt) (maxBytes : Nat) :
    Nat → Nat → Nat → List Nat → Option FetchResult × Option String × List Nat
  | 0, _, _, sleeps => (none, some "max_retries_exceeded", sleeps)
  | r + 1, attempt, backoff, sleeps =>
    match net attempt with
    | .exn => fetchLoop net maxBytes r (attempt + 1) (backoff * 2) (sleeps ++ [backoff])
    | .resp status finalUrl html contentLen =>
      if shouldRetry status && decide (1 ≤ r) then
        fetchLoop net maxBytes r (attempt + 1) (backoff * 2) (sleeps ++ [backoff])
      else if 400 ≤ status then
        (none, some ("http_" ++ toString status), sleeps)
      else if maxBytes ≠ 0 && decide (maxBytes < contentLen) then
        (none, some "response_too_large", sleeps)
      else
        (some ⟨status, finalUrl, html⟩, none, sleeps)

/-- `fetch_url`'s retry/status/size behaviour with the defaults of
fetch.py (`max_retries = 3`, `max_bytes = 2_000_000`), starting from
attempt 0 with backoff `1.0`. -/
def fetchUrlNet (net : Nat → NetAttempt) : Option FetchResult × Option String × List Nat :=
  fetchLoop net 2000000 3 0 1 []

/-! ### Rate limiting (fetch.py lines 47–52, pipeline.py lines 234–247)

`fetch_url` keeps a last-fetch timestamp per domain in the caller-supplied
mutable map `rate_limit_state` and sleeps `max(0, 1/req_per_second −
(now − last))` before issuing the request.  Times are modelled as
rationals, the state as an association list with Python's
`dict.get(domain, 0)` default. -/

/-- `1.0 / req_per_second_per_domain if req_per_second_per_domain > 0 else 0`. -/
def minInterval (rps : ℚ) : ℚ := if 0 < rps then 1 / rps else 0

/-- Look up the last-fetch timestamp, default `0` (`state.get(domain, 0)`). -/
def lastFetch (state : List (String × ℚ)) (domain : String) : ℚ :=
  match state.find? (fun p => p.1 = domain) with
  | some p => p.2
  | none => 0

/-- The sleep `fetch_url` performs before fetching `domain` when the
clock reads `now`. -/
def rateWait (state : List (String × ℚ)) (domain : String) (now rps : ℚ) : ℚ :=
  max 0 (minInterval rps - (now - lastFetch state domain))

/-- Issue one rate-limited fetch: the request goes out at
`now + rateWait …` and the state records that time for the domain
(fetch.py line 73, with the request itself taken as instantaneous). -/
def rateFetch (state : List (String × ℚ)) (domain : String) (now rps : ℚ) :
    ℚ × List (String × ℚ) :=
  let t := now + rateWait state domain now rps
  (t, (domain, t) :: state.filter (fun p => p.1 ≠ domain))

/-- The rate-limit state `crawl_jobs_pipeline` hands to **each** submitted
per-domain task: a freshly created empty dict (pipeline.py line 241,
`rate_limit_state={}`), not a structure shared between tasks. -/
def taskLocalRateState : List (String × ℚ) := []

/-- Request timestamps produced when two concurrently running per-domain
tasks (two companies resolving to the same domain) each issue their first
fetch to `domain` at clock time `t`, each using the fresh per-task state
that `crawl_jobs_pipeline` created for it. -/
def fleetTwoTaskFetchTimes (domain : String) (t rps : ℚ) : ℚ × ℚ :=
  ((rateFetch taskLocalRateState domain t rps).1,
   (rateFetch taskLocalRateState domain t rps).1)

/-! ## Data model

`model.py` is not present under `src/`; the `JobPosting` fields are taken
from its construction sites in `extract/generic_html.py` (lines 127–142)
and §3 of the specification. -/

structure JobPosting where
  company_business_id : String
  company_name : String
  company_domain : String
  job_title : String
  job_url : String
  location_text : Option String
  employment_type : Option String
  posted_date : Option String
  description_snippet : Option String
  source : String
  tags : List String
  crawl_ts : String
deriving DecidableEq

/-- `CrawlStats` (pipeline.py lines 25–52). -/
structure CrawlStats where
  domain : String
  pages_fetched : Nat
  jobs_found : Nat
  extractor_used : Option String
  errors : List String
  skipped_reason : Option String
  ats_detected : Option String
  ats_fetch_ok : Bool
  ats_fetch_reason : Option String
  robots_rule_hit : Option String
  first_blocked_url : Option String
deriving DecidableEq

/-- `CrawlStats(domain=domain)` with the dataclass defaults. -/
def initStats (domain : String) : CrawlStats :=
  ⟨domain, 0, 0, none, [], none, none, false, none, none, none⟩

/-! ### Constants modelled from the spec

Modelled from the spec: `src/apprscan/jobs/constants.py` is imported by
`pipeline.py` (`ROBOTS_DISALLOW_ALL`, `ROBOTS_DISALLOW_URL`) but is not
present under `src/`.  Spec §8 fixes the blanket-disallow skip reason to
`"Disallow: /"` and §4.1 names the path-specific denial
`blocked_by_robots`; §4.8 requires the two failure classes to be
distinguishable, and `tests/test_robots_matrix.py` asserts
`skipped_reason == ROBOTS_DISALLOW_ALL` exactly in the blanket case, so
the two constants are distinct. -/
def ROBOTS_DISALLOW_ALL : String := "Disallow: /"

/-- Modelled from the spec: see `ROBOTS_DISALLOW_ALL`. -/
def ROBOTS_DISALLOW_URL : String := "blocked_by_robots"

/-! ## Generic extractor — `src/apprscan/jobs/extract/generic_html.py`

HTML parsing itself (BeautifulSoup) is modelled by oracle functions that
deliver the anchors, title text, visible text and first-heading text of a
page; URL joining/parsing (`urljoin`, `urlparse`) is modelled by an oracle
producing the absolute URL together with its parsed path and query.  The
filtering, consent-wall scoring, deduplication and posting construction —
the logic that lives in this repository — is embedded directly. -/

/-- An absolute candidate URL as produced by `urljoin` + `urlparse`:
the full URL string plus its parsed path and query components. -/
structure Url where
  full : String
  path : String
  query : String
deriving DecidableEq

structure Company where
  business_id : String
  name : String
  domain : String
deriving DecidableEq

def JOB_URL_HINTS : List String :=
  ["/jobs", "/careers", "/positions", "/rekry", "/tyopaikat", "?job", "open-position"]

def JOB_TEXT_HINTS : List String :=
  ["apply", "hae", "avoin", "position", "job", "role", "tehtävä"]

def LISTING_PATHS : List String :=
  ["/jobs", "/careers", "/positions", "/open-positions", "/rekry", "/tyopaikat", "/ura"]

def NON_JOB_PATH_HINTS : List String :=
  ["/people", "/team", "/privacy", "/terms", "/about", "/contact"]

def NON_JOB_QUERY_HINTS : List String :=
  ["department_id=", "team_id=", "category="]

def CONSENT_KEYWORDS : List String :=
  ["cookie", "cookies", "consent", "preferences", "accept", "manage cookies",
   "eväste", "evaste", "evästeet", "hyväksy", "suostumus", "valitse"]

/-- Oracles standing for the library calls used by the generic extractor:
`anchors` lists the `(href, text)` pairs of a page's `<a href=…>` tags,
`joinUrl` is `urlparse(urljoin(base, href))`, `fetch` is `fetch_url`
specialised to this crawl's session/rate state, `titleText`/`bodyText`
are `soup.title` text and `soup.get_text(" ", strip=True)`, `h1Text` is
the first `<h1>`'s text, and `detectTags` is `tagging.detect_tags`
(module absent from `src/`). -/
structure GenEnv where
  anchors : String → List (String × String)
  joinUrl : String → String → Url
  fetch : String → Option FetchResult × Option String
  titleText : String → String
  bodyText : String → String
  h1Text : String → Option String
  detectTags : String → List String

/-- `discover_job_links` (generic_html.py lines 35–48): anchors whose href
or visible text matches the hint vocabulary, deduplicated by target,
first-seen order preserved. -/
def discoverJobLinks (env : GenEnv) (html baseUrl : String) : List Url :=
  (env.anchors html).foldl
    (fun acc (a : String × String) =>
      let href := a.1
      let text := lowerL a.2.toList
      let target := env.joinUrl baseUrl href
      if acc.contains target then acc
      else if (JOB_URL_HINTS.any fun hint => hasSub hint.toList (lowerL href.toList))
           || (JOB_TEXT_HINTS.any fun ht => hasSub ht.toList text) then
        acc ++ [target]
      else acc)
    []

/-- `_is_listing_url` (lines 51–54): the path with trailing slashes
removed (or `/` if that leaves nothing) is one of the known listing-page
paths. -/
def isListingUrl (u : Url) : Bool :=
  let path := (stripTrailingBy (fun c => c = '/') u.path.toList).asString
  let path := if path = "" then "/" else path
  LISTING_PATHS.contains path

/-- `_is_non_job_url` (lines 57–65). -/
def isNonJobUrl (u : Url) : Bool :=
  (NON_JOB_PATH_HINTS.any fun h => hasSub h.toList (lowerL u.path.toList))
  || (NON_JOB_QUERY_HINTS.any fun q => hasSub q.toList (lowerL u.query.toList))

/-- `_is_cookie_consent_page` (lines 68–76): join the title text and the
visible text with a space, lowercase, count distinct consent-keyword
hits; two or more hits, or "cookie" and "consent" together, classify the
page as a consent wall. -/
def isCookieConsentPage (env : GenEnv) (html : String) : Bool :=
  let text := lowerL (env.titleText html ++ " " ++ env.bodyText html).toList
  let hits := CONSENT_KEYWORDS.filter fun kw => hasSub kw.toList text
  2 ≤ hits.length || (hasSub "cookie".toList text && hasSub "consent".toList text)

/-- What happened to one candidate URL inside `extract_jobs_generic`'s
loop (instrumentation; each constructor corresponds to exactly one
`continue`/fall-through of lines 95–142). -/
inductive COutcome where
  | skippedListing
  | skippedNonJob
  | skippedDup
  | fetchFailed
  | skippedConsent
  | extracted
deriving DecidableEq

structure GenericRun where
  jobs : List JobPosting
  errors : List String
  fetched : List String
  outcomes : List (Url × COutcome)
deriving DecidableEq

/-- The candidate loop of `extract_jobs_generic` (lines 95–142).
`errsSupplied` models whether the caller passed an `errors` list (the
appends at lines 97–98, 101–102 and 117–118 only happen when it did);
`fetched` records every URL handed to `fetch_url`. -/
def genericLoop (env : GenEnv) (company : Company) (crawlTs : String)
    (errsSupplied : Bool) : List Url → List String → GenericRun → GenericRun
  | [], _, acc => acc
  | url :: rest, seen, acc =>
    if isListingUrl url then
      let acc := { acc with
        errors := if errsSupplied then acc.errors ++ ["listing_url_skipped"] else acc.errors,
        outcomes := acc.outcomes ++ [(url, .skippedListing)] }
      genericLoop env company crawlTs errsSupplied rest seen acc
    else if isNonJobUrl url then
      let acc := { acc with
        errors := if errsSupplied then acc.errors ++ ["non_job_url_skipped"] else acc.errors,
        outcomes := acc.outcomes ++ [(url, .skippedNonJob)] }
      genericLoop env company crawlTs errsSupplied rest seen acc
    else
      let normalized := (stripTrailingBy (fun c => c = '/') url.full.toList).asString
      if seen.contains normalized then
        genericLoop env company crawlTs errsSupplied rest seen
          { acc with outcomes := acc.outcomes ++ [(url, .skippedDup)] }
      else
        let acc := { acc with fetched := acc.fetched ++ [url.full] }
        match env.fetch url.full with
        | (none, _) =>
          genericLoop env company crawlTs errsSupplied rest seen
            { acc with outcomes := acc.outcomes ++ [(url, .fetchFailed)] }
        | (some res, _) =>
          if isCookieConsentPage env res.html then
            let acc := { acc with
              errors := if errsSupplied then acc.errors ++ ["cookie_consent"] else acc.errors,
              outcomes := acc.outcomes ++ [(url, .skippedConsent)] }
            genericLoop env company crawlTs errsSupplied rest seen acc
          else
            let title := (env.h1Text res.html).getD res.final_url
            let bodyText := env.bodyText res.html
            let snippet : Option String :=
              if bodyText = "" then none else some (bodyText.toList.take 300).asString
            let tags := env.detectTags (title ++ " " ++ (snippet.getD ""))
            let job : JobPosting :=
              ⟨company.business_id, company.name, company.domain, title, res.final_url,
               none, none, none, snippet, "generic_html", tags, crawlTs⟩
            genericLoop env company crawlTs errsSupplied rest (seen ++ [normalized])
              { acc with jobs := acc.jobs ++ [job],
                         outcomes := acc.outcomes ++ [(url, .extracted)] }

/-- `extract_jobs_generic` (lines 79–143) with the default
`max_detail_pages = 20`. -/
def extractJobsGeneric (env : GenEnv) (company : Company) (crawlTs : String)
    (errsSupplied : Bool) (html baseUrl : String) : GenericRun :=
  genericLoop env company crawlTs errsSupplied
    ((discoverJobLinks env html baseUrl).take 20) [] ⟨[], [], [], []⟩

/-! ## Per-domain orchestrator — `crawl_domain` (pipeline.py lines 79–198)

The collaborating modules that `pipeline.py` imports but that are not
present under `src/` (`ats.py`, `discovery.py`, the JSON-LD extractor,
`tagging.py`) enter as oracle functions in `CrawlEnv`, already
specialised to this crawl's company, session, rate state and timestamp;
the orchestration logic itself is embedded directly.  `fetched` logs in
the results record every URL handed to `fetch_url`, and `pageLog` records
for every successfully fetched seed page how many postings the JSON-LD
extractor returned there and whether the generic extractor was run on it. -/

/-- `detect_ats` result (`ats.py` absent from `src/`): `kind` is
`detected.get("kind")`, which may itself be missing. -/
structure AtsMatch where
  kind : Option String
  payload : String
deriving DecidableEq

structure CrawlEnv where
  /-- `urlparse(url).netloc`. -/
  host : String → String
  /-- Outcome of fetching `https://{domain}/robots.txt` (per domain,
  fixed for the crawl batch — the checker caches it). -/
  robotsNet : String → ReadOutcome
  /-- `fetch_url(session, url, …)` for the pipeline's own calls. -/
  fetch : String → Option FetchResult × Option String
  /-- `detect_ats(base_url, html)`. -/
  detectAts : String → String → Option AtsMatch
  /-- `fetch_ats_jobs(detected, company, crawl_ts)`. -/
  fetchAts : AtsMatch → List JobPosting × Option String
  /-- `discover_paths(domain)`. -/
  discoverPaths : String → List String
  /-- `parse_sitemap(html, base_url, max_urls=200)`. -/
  parseSitemap : String → String → List String
  /-- `extract_jobs_from_jsonld(html, final_url, company, crawl_ts)`. -/
  jsonld : String → String → List JobPosting
  /-- `filter_discovery_results(html, final_url)`. -/
  filterDiscovery : String → String → List String
  /-- `extract_jobs_generic(session, html, final_url, company, crawl_ts, …)`
  as called at pipeline.py lines 183–192, paired with the URLs that call
  fetched internally. -/
  generic : String → String → List JobPosting × List String

/-- `RobotsChecker.can_fetch_detail(url)` with the checker's per-domain
cache modelled as memoisation of the pure per-domain outcome. -/
def envCanFetchDetail (env : CrawlEnv) (url : String) : Bool × Option String :=
  canFetchDetailP (robotsFetchParser (env.robotsNet (env.host url))) url

/-- `list(dict.fromkeys(seeds))` — deduplicate preserving first-seen
order (pipeline.py line 146). -/
def dedupKeepFirst (l : List String) : List String :=
  (l.foldl (fun acc u => if acc.contains u then acc else u :: acc) []).reverse

/-- Instrumentation: one successfully fetched seed page. -/
structure PageLogEntry where
  url : String
  structuredCount : Nat
  genericRan : Bool
deriving DecidableEq

structure LoopState where
  stats : CrawlStats
  jobs : List JobPosting
  fetched : List String
  pageLog : List PageLogEntry

/-- The seed loop of `crawl_domain` (pipeline.py lines 149–196).
`pending` is the not-yet-visited part of the `seeds` list; the
`seeds.extend(filter_discovery_results(…))` at line 182 appends to its
end, exactly as extending the list being iterated does in Python. -/
def seedLoop (env : CrawlEnv) (maxPages : Nat) (pending : List String)
    (st : LoopState) : LoopState :=
  match hp : pending with
  | [] => st
  | seed :: rest =>
    if hb : maxPages ≤ st.stats.pages_fetched then st
    else
      let checked := envCanFetchDetail env seed
      if !checked.1 then
        let stats1 := { st.stats with errors := st.stats.errors ++ [ROBOTS_DISALLOW_URL] }
        let stats2 :=
          if !pyTruthy stats1.first_blocked_url then
            { stats1 with first_blocked_url := some seed, robots_rule_hit := checked.2,
                          skipped_reason := pyOrOpt stats1.skipped_reason (some ROBOTS_DISALLOW_URL) }
          else stats1
        seedLoop env maxPages rest { st with stats := stats2 }
      else
        match hf : env.fetch seed with
        | (none, reason) =>
          let stats1 := { st.stats with
            errors := st.stats.errors ++ [pyOrStr reason ("fetch_failed:" ++ seed)] }
          let stats2 :=
            if (reason = some ROBOTS_DISALLOW_ALL ∨ reason = some ROBOTS_DISALLOW_URL)
                ∧ !pyTruthy stats1.first_blocked_url then
              { stats1 with first_blocked_url := some seed, robots_rule_hit := reason,
                            skipped_reason := pyOrOpt stats1.skipped_reason reason }
            else stats1
          seedLoop env maxPages rest
            { st with stats := stats2, fetched := st.fetched ++ [seed] }
        | (some res, _) =>
          let stats1 := { st.stats with pages_fetched := st.stats.pages_fetched + 1 }
          let jl := env.jsonld res.html res.final_url
          if jl ≠ [] then
            let stats2 := { stats1 with
              extractor_used := some ((stats1.extractor_used.getD "") ++ ";jsonld") }
            seedLoop env maxPages rest
              { stats := stats2, jobs := st.jobs ++ jl, fetched := st.fetched ++ [seed],
                pageLog := st.pageLog ++ [⟨res.final_url, jl.length, false⟩] }
          else
            let newSeeds := env.filterDiscovery res.html res.final_url
            let gres := env.generic res.html res.final_url
            let stats2 :=
              if gres.1 ≠ [] then
                { stats1 with
                  extractor_used := some ((stats1.extractor_used.getD "") ++ ";generic") }
              else stats1
            seedLoop env maxPages (rest ++ newSeeds)
              { stats := stats2, jobs := st.jobs ++ gres.1,
                fetched := st.fetched ++ [seed] ++ gres.2,
                pageLog := st.pageLog ++ [⟨res.final_url, jl.length, true⟩] }
termination_by (maxPages - st.stats.pages_fetched, pending.length)
decreasing_by
  · split <;> exact Prod.Lex.right _ (by simp [hp])
  · split <;> exact Prod.Lex.right _ (by simp [hp])
  · exact Prod.Lex.left _ _ (Nat.sub_succ_lt_self _ _ (by omega))
  · split <;> exact Prod.Lex.left _ _ (Nat.sub_succ_lt_self _ _ (by omega))

structure CrawlResult where
  jobs : List JobPosting
  stats : CrawlStats
  fetched : List String
  pageLog : List PageLogEntry
deriving DecidableEq

/-- The discovery/sitemap/seed-loop phase of `crawl_domain`
(pipeline.py lines 126–198), entered when no ATS shortcut returned
postings: gather seed paths, try the sitemap (subject to its own robots
check), run the seed loop, and finish the stats record with
`jobs_found = len(all_jobs)`. -/
def discoveryPhase (env : CrawlEnv) (domain : String) (maxPages : Nat)
    (stats : CrawlStats) : CrawlResult :=
  let baseUrl := "https://" ++ domain
  let seeds0 := env.discoverPaths domain
  let sitemapUrl := "https://" ++ domain ++ "/sitemap.xml"
  let smChecked := envCanFetchDetail env sitemapUrl
  let smRes : Option FetchResult := if smChecked.1 then (env.fetch sitemapUrl).1 else none
  let stats := if smChecked.1 then stats
    else { stats with errors := stats.errors ++ ["robots_disallow_sitemap"] }
  let fetched0 := [baseUrl] ++ (if smChecked.1 then [sitemapUrl] else [])
  let statsSeeds : CrawlStats × List String :=
    match smRes with
    | some r =>
      if r.status = 200 then
        ({ stats with pages_fetched := stats.pages_fetched + 1 },
         seeds0 ++ env.parseSitemap r.html baseUrl)
      else (stats, seeds0)
    | none => (stats, seeds0)
  let seeds := dedupKeepFirst statsSeeds.2
  let final := seedLoop env maxPages seeds ⟨statsSeeds.1, [], fetched0, []⟩
  { jobs := final.jobs,
    stats := { final.stats with jobs_found := final.jobs.length },
    fetched := final.fetched, pageLog := final.pageLog }

/-- `crawl_domain` (pipeline.py lines 79–198). -/
def crawlDomain (env : CrawlEnv) (domain : String) (maxPages : Nat) : CrawlResult :=
  let stats := initStats domain
  let baseUrl := "https://" ++ domain
  let checked := envCanFetchDetail env baseUrl
  if !checked.1 then
    { jobs := [], fetched := [], pageLog := [],
      stats := { stats with
        skipped_reason :=
          some (if checked.2 = some "Disallow: /" then ROBOTS_DISALLOW_ALL
                else ROBOTS_DISALLOW_URL),
        robots_rule_hit := checked.2,
        first_blocked_url := some baseUrl } }
  else
    match env.fetch baseUrl with
    | (none, reason) =>
      { jobs := [], fetched := [baseUrl], pageLog := [],
        stats := { stats with skipped_reason := some (pyOrStr reason "base_fetch_failed") } }
    | (some res, _) =>
      let stats := { stats with pages_fetched := 1 }
      let afterAts : CrawlStats × Option (List JobPosting) :=
        match env.detectAts baseUrl res.html with
        | none => (stats, none)
        | some m =>
          let stats := { stats with ats_detected := m.kind }
          let fetchedAts := env.fetchAts m
          if fetchedAts.1 ≠ [] then
            ({ stats with ats_fetch_ok := true, jobs_found := fetchedAts.1.length,
                          extractor_used := m.kind }, some fetchedAts.1)
          else
            ({ stats with ats_fetch_reason := fetchedAts.2 }, none)
      match afterAts with
      | (stats, some jobs) => { jobs := jobs, stats := stats, fetched := [baseUrl], pageLog := [] }
      | (stats, none) => discoveryPhase env domain maxPages stats

/-! ## Diff/dedup engine — `apply_diff` (pipeline.py lines 261–322)

A postings table row is modelled by the columns `apply_diff` touches;
the persisted known index by the pair of column sets it reads and writes
(parquet/CSV round-tripping is value-preserving for these columns).
CPython's `hash` on a tuple of strings is deterministic within one
process (both calls of the idempotence property happen in one process);
it is modelled by a fixed concrete function of the normalized tuple. -/

structure JobRow where
  job_title : List Char
  location_text : List Char
  posted_date : List Char
  company_domain : List Char
  job_url : String
deriving DecidableEq

/-- `norm` inside `apply_diff.fingerprint` (pipeline.py lines 264–269):
lowercase, strip, collapse whitespace runs to single spaces, drop the
locale suffixes `", finland"` and `", suomi"`. -/
def normField (s : List Char) : List Char :=
  replaceDrop ", suomi".toList
    (replaceDrop ", finland".toList (collapseWs (pyStrip (lowerL s))))

/-- Stand-in for CPython `hash` on a 4-tuple of strings: a fixed
deterministic function of the tuple. -/
def pyHash (t : List Char × List Char × List Char × List Char) : Int :=
  let hStr : List Char → Int := fun l => l.foldl (fun a c => a * 131 + (c.toNat : Int)) 7
  ((hStr t.1 * 1000003 + hStr t.2.1) * 1000003 + hStr t.2.2.1) * 1000003 + hStr t.2.2.2

/-- `fingerprint(row)` (pipeline.py lines 263–275). -/
def fingerprintRow (r : JobRow) : Int :=
  pyHash (normField r.job_title, normField r.location_text,
          normField r.posted_date, normField r.company_domain)

/-- The persisted known-job index: the `job_url` and `job_fingerprint`
column sets that `apply_diff` reads back. -/
structure KnownIndex where
  urls : List String
  fps : List Int
deriving DecidableEq

structure DiffResult where
  /-- Rows with their computed fingerprint and `is_new` flag. -/
  annotated : List (JobRow × Int × Bool)
  /-- `new_jobs = jobs_df[jobs_df["is_new"]]`. -/
  newJobs : List JobRow
  /-- The `[job_url, job_fingerprint]` table written over the index file. -/
  written : KnownIndex
deriving DecidableEq

/-- `apply_diff(jobs_df, known_path)`: `disk = none` models a missing or
unreadable index (all read fallbacks exhausted — empty known sets);
`disk = some idx` models a readable index with the given columns. -/
def applyDiff (rows : List JobRow) (disk : Option KnownIndex) : DiffResult :=
  let known := disk.getD ⟨[], []⟩
  let isNew : JobRow → Bool := fun r =>
    !known.urls.contains r.job_url && !known.fps.contains (fingerprintRow r)
  { annotated := rows.map fun r => (r, fingerprintRow r, isNew r),
    newJobs := rows.filter isNew,
    written := ⟨rows.map (·.job_url), rows.map fingerprintRow⟩ }

/-! ## Claim theorems -/

/-- C2: Diff idempotence — for every postings set and every prior
known-index content (including a missing index), running `apply_diff`
and then running it again against the index file the first call wrote
yields an empty new-postings set on the second call. -/
theorem apply_diff_idempotent (rows : List JobRow) (disk : Option KnownIndex) :
    (applyDiff rows (some (applyDiff rows disk).written)).newJobs = [] := by
  simp only [applyDiff, Option.getD_some]
  rw [List.filter_eq_nil_iff]
  intro r hr
  have hmem : r.job_url ∈ rows.map (fun x => x.job_url) := List.mem_map_of_mem _ hr
  simp only [List.elem_eq_true_of_mem hmem, Bool.not_true, Bool.false_and,
    Bool.not_eq_true]

/-- C3: the fleet orchestrator creates a fresh, task-local
`rate_limit_state={}` for every per-domain task (pipeline.py line 241),
so two tasks crawling the same domain are not spaced: both first fetches
can be issued at the same instant — separation `0`, strictly below the
required `1/req_per_second` — exhibited here at clock time 100 with
`req_per_second = 1`. -/
theorem fleet_fresh_rate_state_not_spaced :
    fleetTwoTaskFetchTimes "example.com" 100 1 = (100, 100) ∧
    (fleetTwoTaskFetchTimes "example.com" 100 1).2 -
      (fleetTwoTaskFetchTimes "example.com" 100 1).1 < minInterval 1 := by
  have h : fleetTwoTaskFetchTimes "example.com" 100 1 = (100, 100) := by
    simp [fleetTwoTaskFetchTimes, rateFetch, rateWait, lastFetch, taskLocalRateState,
      minInterval]
  refine ⟨h, ?_⟩
  rw [h]
  norm_num [minInterval]

/-- C4 (amended): the `RobotsChecker` gate of `jobs/robots.py` is
fail-closed — when the robots.txt fetch fails with a network-level error,
every URL of the domain is denied with reason `robots_unavailable` —
while the legacy `can_fetch` helper of `jobs.py` treats the same failure
as allow-all and permits every URL. -/
theorem robots_unavailable_fail_closed (url : String) :
    canFetchDetailP (robotsFetchParser ReadOutcome.ioError) url
      = (false, some "robots_unavailable")
    ∧ legacyCanFetch ReadOutcome.ioError url = true := by
  constructor <;> rfl

/-- C4 counterexample: the claim says every URL under a domain whose
robots.txt fetch fails is denied ("never treated as allow-all"), but the
legacy robots gate `can_fetch` in `jobs.py` (cited by the claim) answers
allow for a concrete URL of such a domain. -/
theorem robots_unavailable_legacy_gate_allows :
    legacyCanFetch ReadOutcome.ioError "https://example.com/jobs" = true := by
  rfl

/-- C4 witness: the fail-closed/fail-open split evaluated at a concrete
URL. -/
theorem robots_unavailable_fail_closed_witness :
    canFetchDetailP (robotsFetchParser ReadOutcome.ioError) "https://example.com/careers"
      = (false, some "robots_unavailable")
    ∧ legacyCanFetch ReadOutcome.ioError "https://example.com/careers" = true :=
  robots_unavailable_fail_closed "https://example.com/careers"

/-- Helper: with every attempt raising a network exception, the loop
sleeps the doubling backoffs and exhausts all remaining attempts. -/
theorem fetchLoop_exn (net : Nat → NetAttempt) (mB : Nat)
    (hnet : ∀ i, net i = NetAttempt.exn) :
    ∀ r attempt backoff sleeps,
      fetchLoop net mB r attempt backoff sleeps =
        (none, some "max_retries_exceeded",
          sleeps ++ (List.range r).map (fun i => backoff * 2 ^ i)) := by
  intro r
  induction r with
  | zero => intro attempt backoff sleeps; simp [fetchLoop]
  | succ k ih =>
    intro attempt backoff sleeps
    simp only [fetchLoop, hnet]
    rw [ih]
    simp only [List.append_assoc, List.singleton_append, List.range_succ_eq_map,
      List.map_cons, List.map_map, pow_zero, mul_one]
    have hmap : List.map (fun i => backoff * 2 * 2 ^ i) (List.range k) =
        List.map ((fun i => backoff * 2 ^ i) ∘ Nat.succ) (List.range k) := by
      apply List.map_congr_left
      intro a _
      simp [Function.comp_def, pow_succ]
      ring
    rw [hmap]

/-- Helper: with every attempt answering the same retryable error status,
the loop retries (sleeping the doubling backoffs) until the final attempt
and then reports the HTTP status. -/
theorem fetchLoop_retryable_status (net : Nat → NetAttempt) (mB s l : Nat) (u hx : String)
    (hs : shouldRetry s = true) (h4 : 400 ≤ s)
    (hnet : ∀ i, net i = NetAttempt.resp s u hx l) :
    ∀ r, 1 ≤ r → ∀ attempt backoff sleeps,
      fetchLoop net mB r attempt backoff sleeps =
        (none, some ("http_" ++ toString s),
          sleeps ++ (List.range (r - 1)).map (fun i => backoff * 2 ^ i)) := by
  intro r
  induction r with
  | zero => omega
  | succ k ih =>
    intro _ attempt backoff sleeps
    simp only [fetchLoop, hnet]
    by_cases hk : 1 ≤ k
    · rw [if_pos (by simp [hs, hk])]
      rw [ih hk]
      have hk1 : k = (k - 1) + 1 := by omega
      rw [show k + 1 - 1 = (k - 1) + 1 by omega]
      simp only [List.append_assoc, List.singleton_append, List.range_succ_eq_map,
        List.map_cons, List.map_map, pow_zero, mul_one]
      have hmap : List.map (fun i => backoff * 2 * 2 ^ i) (List.range (k - 1)) =
          List.map ((fun i => backoff * 2 ^ i) ∘ Nat.succ) (List.range (k - 1)) := by
        apply List.map_congr_left
        intro a _
        simp [Function.comp_def, pow_succ]
        ring
      rw [hmap]
    · have hk0 : k = 0 := by omega
      subst hk0
      rw [if_neg (by simp)]
      rw [if_pos h4]
      simp

/-- C5 (amended): a 4xx status other than 429 on the first attempt is
terminal with reason `http_<code>` and no retry sleep; an unbroken run of
network-level failures exhausts all `max_retries` attempts, sleeping the
doubling backoffs `1, 2, 4, …`, and reports `max_retries_exceeded`; an
unbroken run of one retryable status (429 or 5xx) is retried with the
same doubling backoffs but its final attempt reports `http_<code>` — not
`max_retries_exceeded`, which is reserved for exhausted network-level
failures. -/
theorem fetch_retry_taxonomy :
    (∀ (net : Nat → NetAttempt) (s l mB : Nat) (u hx : String),
       net 0 = NetAttempt.resp s u hx l → 400 ≤ s → s < 500 → s ≠ 429 →
       fetchLoop net mB 3 0 1 [] = (none, some ("http_" ++ toString s), []))
    ∧ (∀ (net : Nat → NetAttempt) (mB mR : Nat), (∀ i, net i = NetAttempt.exn) →
       fetchLoop net mB mR 0 1 [] =
         (none, some "max_retries_exceeded", (List.range mR).map (2 ^ ·)))
    ∧ (∀ (net : Nat → NetAttempt) (s l mB mR : Nat) (u hx : String),
       shouldRetry s = true → 400 ≤ s → (∀ i, net i = NetAttempt.resp s u hx l) →
       1 ≤ mR →
       fetchLoop net mB mR 0 1 [] =
         (none, some ("http_" ++ toString s), (List.range (mR - 1)).map (2 ^ ·))) := by
  refine ⟨?_, ?_, ?_⟩
  · intro net s l mB u hx hnet0 hge hlt hne
    have hsr : shouldRetry s = false := by
      simp only [shouldRetry, Bool.or_eq_false_iff, Bool.and_eq_false_iff,
        beq_eq_false_iff_ne, ne_eq, decide_eq_false_iff_not, not_le, not_lt]
      exact ⟨hne, Or.inl (by omega)⟩
    simp only [fetchLoop, hnet0]
    rw [if_neg (by simp [hsr])]
    rw [if_pos hge]
  · intro net mB mR hnet
    rw [fetchLoop_exn net mB hnet mR 0 1 []]
    simp
  · intro net s l mB mR u hx hs h4 hnet hmr
    rw [fetchLoop_retryable_status net mB s l u hx hs h4 hnet mR hmr 0 1 []]
    simp

/-- C5 counterexample: a fetch whose every attempt returns HTTP 429
exhausts its retry budget (sleeping backoffs 1 and 2) yet reports
`http_429`, not `max_retries_exceeded` as the claim's exhaustion clause
states. -/
theorem fetch_429_exhaustion_reports_http_429 :
    fetchUrlNet (fun _ => NetAttempt.resp 429 "https://example.com" "" 0)
      = (none, some "http_429", [1, 2])
    ∧ (some "http_429" : Option String) ≠ some "max_retries_exceeded" := by
  exact ⟨rfl, by decide⟩

/-- C5 witness: the three branches of the retry taxonomy evaluated at
concrete network behaviours. -/
theorem fetch_retry_taxonomy_witness :
    fetchLoop (fun _ => NetAttempt.resp 404 "u" "" 0) 0 3 0 1 [] = (none, some "http_404", [])
    ∧ fetchLoop (fun _ => NetAttempt.exn) 0 3 0 1 [] =
        (none, some "max_retries_exceeded", (List.range 3).map (2 ^ ·))
    ∧ fetchLoop (fun _ => NetAttempt.resp 503 "u" "" 0) 0 5 0 1 [] =
        (none, some ("http_" ++ toString 503), (List.range (5 - 1)).map (2 ^ ·)) :=
  ⟨fetch_retry_taxonomy.1 _ 404 0 0 "u" "" rfl (by decide) (by decide) (by decide),
   fetch_retry_taxonomy.2.1 _ 0 3 (fun _ => rfl),
   fetch_retry_taxonomy.2.2 _ 503 0 0 5 "u" "" (by decide) (by decide) (fun _ => rfl)
     (by decide)⟩

/-! ### Canonical form of the fingerprint normalisation (for C9) -/

theorem stripTrailingBy_cons (p : Char → Bool) (c : Char) (rest : List Char) :
    stripTrailingBy p (c :: rest) =
      if p c && (stripTrailingBy p rest).isEmpty then [] else c :: stripTrailingBy p rest := rfl

theorem endsInSpace_cons_of_ne (c : Char) {l : List Char} (hl : l ≠ []) :
    endsInSpace (c :: l) = endsInSpace l := by
  cases l with
  | nil => exact absurd rfl hl
  | cons d rest => rfl

theorem endsInSpace_stripTrailing (s : List Char) :
    endsInSpace (stripTrailingBy pySpace s) = false := by
  induction s with
  | nil => rfl
  | cons c rest ih =>
    rw [stripTrailingBy_cons]
    by_cases hcond : (pySpace c && (stripTrailingBy pySpace rest).isEmpty) = true
    · rw [if_pos hcond]; rfl
    · rw [if_neg hcond]
      by_cases hst : stripTrailingBy pySpace rest = []
      · have hc : pySpace c = false := by
          cases hpc : pySpace c
          · rfl
          · exact absurd (by simp [hpc, hst]) hcond
        simp [hst, endsInSpace, hc]
      · rw [endsInSpace_cons_of_ne c hst]
        exact ih

theorem headSpaceB_dropWhile (s : List Char) :
    headSpaceB (s.dropWhile pySpace) = false := by
  induction s with
  | nil => rfl
  | cons c rest ih =>
    by_cases hc : pySpace c = true
    · simpa [List.dropWhile_cons, hc] using ih
    · simp [List.dropWhile_cons, hc, headSpaceB, Bool.eq_false_iff.mpr hc]

theorem headSpaceB_stripTrailing (p : Char → Bool) (s : List Char)
    (hs : headSpaceB s = false) : headSpaceB (stripTrailingBy p s) = false := by
  cases s with
  | nil => rfl
  | cons c rest =>
    rw [stripTrailingBy_cons]
    by_cases hcond : (p c && (stripTrailingBy p rest).isEmpty) = true
    · rw [if_pos hcond]; rfl
    · rw [if_neg hcond]; simpa [headSpaceB] using hs

theorem wordsAux_ne_nil (s : List Char) (hnt : endsInSpace s = false) (hs : s ≠ []) :
    ∀ cur, wordsAux cur s ≠ [] := by
  induction s with
  | nil => exact absurd rfl hs
  | cons c rest ih =>
    intro cur
    by_cases hre : rest = []
    · subst hre
      have hc : pySpace c = false := by simpa [endsInSpace] using hnt
      simp [wordsAux, hc]
    · have hrest : endsInSpace rest = false := by
        rw [← endsInSpace_cons_of_ne c hre]; exact hnt
      by_cases hc : pySpace c = true
      · by_cases hcur : cur.isEmpty
        · simpa [wordsAux, hc, hcur] using ih hrest hre []
        · simp [wordsAux, hc, hcur]
      · simpa [wordsAux, hc] using ih hrest hre (c :: cur)

theorem joinW_cons (w : List Char) {ws : List (List Char)} (h : ws ≠ []) :
    joinW (w :: ws) = w ++ ' ' :: joinW ws := by
  cases ws with
  | nil => exact absurd rfl h
  | cons x xs => rfl

/-- The one-pass whitespace collapse in terms of the word decomposition:
for a string with no trailing whitespace, `collapseAux true` (resp.
`false`) produces the single-space join of its words (with a leading
space when the string started with whitespace), and from mid-word state
the remaining words are the accumulated prefix followed by the collapse
of the remainder. -/
theorem collapse_words_canon (s : List Char) (hnt : endsInSpace s = false) :
    (collapseAux true s = joinW (wordsAux [] s))
    ∧ (∀ cur, cur ≠ [] → joinW (wordsAux cur s) = cur.reverse ++ collapseAux false s)
    ∧ (collapseAux false s =
        (if headSpaceB s then [' '] else []) ++ joinW (wordsAux [] s)) := by
  induction s with
  | nil =>
    refine ⟨rfl, ?_, rfl⟩
    intro cur hcur
    simp [wordsAux, joinW, collapseAux, List.isEmpty_iff, hcur]
  | cons c rest ih =>
    by_cases hre : rest = []
    · subst hre
      have hc : pySpace c = false := by simpa [endsInSpace] using hnt
      refine ⟨?_, ?_, ?_⟩
      · simp [collapseAux, wordsAux, joinW, hc]
      · intro cur hcur
        simp [collapseAux, wordsAux, joinW, hc, List.isEmpty_iff, hcur]
      · simp [collapseAux, wordsAux, joinW, hc, headSpaceB]
    · have hrest : endsInSpace rest = false := by
        rw [← endsInSpace_cons_of_ne c hre]; exact hnt
      obtain ⟨ihA, ihB, ihC⟩ := ih hrest
      by_cases hc : pySpace c = true
      · have hwne : wordsAux [] rest ≠ [] := wordsAux_ne_nil rest hrest hre []
        refine ⟨?_, ?_, ?_⟩
        · simp [collapseAux, wordsAux, hc, ihA]
        · intro cur hcur
          rw [show wordsAux cur (c :: rest) = cur.reverse :: wordsAux [] rest by
                simp [wordsAux, hc, List.isEmpty_iff, hcur]]
          rw [joinW_cons _ hwne]
          simp [collapseAux, hc, ihA]
        · simp [collapseAux, wordsAux, headSpaceB, hc, ihA]
      · have hc' : pySpace c = false := Bool.eq_false_iff.mpr hc
        refine ⟨?_, ?_, ?_⟩
        · rw [show collapseAux true (c :: rest) = c :: collapseAux false rest by
                simp [collapseAux, hc']]
          rw [show wordsAux [] (c :: rest) = wordsAux [c] rest by simp [wordsAux, hc']]
          rw [ihB [c] (by simp)]
          simp
        · intro cur hcur
          rw [show wordsAux cur (c :: rest) = wordsAux (c :: cur) rest by
                simp [wordsAux, hc']]
          rw [ihB (c :: cur) (by simp)]
          simp [collapseAux, hc']
        · rw [show collapseAux false (c :: rest) = c :: collapseAux false rest by
                simp [collapseAux, hc']]
          rw [show wordsAux [] (c :: rest) = wordsAux [c] rest by simp [wordsAux, hc']]
          rw [ihB [c] (by simp)]
          simp [headSpaceB, hc']

/-- After `strip`, the whitespace collapse is exactly the single-space
join of the string's words. -/
theorem collapse_strip_eq_joinW (s : List Char) :
    collapseWs (pyStrip s) = joinW (wordsAux [] (pyStrip s)) := by
  have h1 : endsInSpace (pyStrip s) = false := endsInSpace_stripTrailing _
  have h2 : headSpaceB (pyStrip s) = false :=
    headSpaceB_stripTrailing _ _ (headSpaceB_dropWhile s)
  have h3 := (collapse_words_canon (pyStrip s) h1).2.2
  rw [collapseWs, h3, h2]
  simp

/-- The whitespace-separated words of the lowercased, stripped title —
two titles that differ only in letter case and in the width of their
whitespace runs have the same `titleWords`. -/
def titleWords (t : List Char) : List (List Char) :=
  wordsAux [] (pyStrip (lowerL t))

/-- C9: fingerprint insensitivity to whitespace and case — two postings
that agree on location, posted date and domain, and whose titles have the
same sequence of lowercased whitespace-separated words (i.e. differ only
by letter case and/or runs of whitespace), receive the same fingerprint
from the diff engine, whatever their URLs. -/
theorem fingerprint_case_ws_insensitive
    (t1 t2 loc posted dom : List Char) (u1 u2 : String)
    (hw : titleWords t1 = titleWords t2) :
    fingerprintRow ⟨t1, loc, posted, dom, u1⟩ = fingerprintRow ⟨t2, loc, posted, dom, u2⟩ := by
  have key : normField t1 = normField t2 := by
    unfold normField
    rw [collapse_strip_eq_joinW (lowerL t1), collapse_strip_eq_joinW (lowerL t2)]
    unfold titleWords at hw
    rw [hw]
  simp [fingerprintRow, key]

/-- C9 witness: `"Software  Engineer"` and `"software engineer"` at the
same location/date/domain collide to the same fingerprint. -/
theorem fingerprint_case_ws_insensitive_witness :
    titleWords "Software  Engineer".toList = titleWords "software engineer".toList
    ∧ fingerprintRow ⟨"Software  Engineer".toList, "Helsinki".toList,
        "2024-01-01".toList, "example.com".toList, "https://example.com/jobs/1"⟩
      = fingerprintRow ⟨"software engineer".toList, "Helsinki".toList,
          "2024-01-01".toList, "example.com".toList, "https://example.com/jobs/1?utm=x"⟩ :=
  ⟨by decide, fingerprint_case_ws_insensitive _ _ _ _ _ _ _ (by decide)⟩

/-- The seed loop never changes the `domain` field of the stats record. -/
theorem seedLoop_domain (env : CrawlEnv) (maxPages : Nat) :
    ∀ pending st,
      (seedLoop env maxPages pending st).stats.domain = st.stats.domain := by
  intro pending st
  induction pending, st using seedLoop.induct env maxPages with
  | case1 st => simp [seedLoop]
  | case2 st seed rest hb => simp [seedLoop, hb]
  | case3 st seed rest hb checked hc stats1 stats2 ih =>
    rw [seedLoop.eq_def]
    dsimp only
    rw [dif_neg hb]
    unfold_let checked at hc
    rw [if_pos hc]
    unfold_let checked stats1 stats2 at ih
    dsimp only at ih ⊢
    first
    | simp only [dite_eq_ite] at ih
    | skip
    rw [ih]
    split <;> rfl
  | case4 st seed rest hb checked hc reason hf stats1 stats2 ih =>
    rw [seedLoop.eq_def]
    dsimp only
    rw [dif_neg hb]
    unfold_let checked at hc
    rw [if_neg (by simp [hc])]
    rw [hf]
    dsimp only
    unfold_let checked stats1 stats2 at ih
    dsimp only at ih ⊢
    first
    | simp only [dite_eq_ite] at ih
    | skip
    rw [ih]
    split <;> rfl
  | case5 st seed rest hb checked hc res snd hf stats1 jl hjl stats2 ih =>
    rw [seedLoop.eq_def]
    dsimp only
    rw [dif_neg hb]
    unfold_let checked at hc
    rw [if_neg (by simp [hc])]
    rw [hf]
    dsimp only
    unfold_let jl at hjl
    rw [if_pos hjl]
    unfold_let checked stats1 jl stats2 at ih
    dsimp only at ih ⊢
    first
    | simp only [dite_eq_ite] at ih
    | skip
    rw [ih]
  | case6 st seed rest hb checked hc res snd hf stats1 jl hjl newSeeds gres stats2 ih =>
    rw [seedLoop.eq_def]
    dsimp only
    rw [dif_neg hb]
    unfold_let checked at hc
    rw [if_neg (by simp [hc])]
    rw [hf]
    dsimp only
    unfold_let jl at hjl
    rw [if_neg hjl]
    unfold_let checked stats1 jl newSeeds gres stats2 at ih
    dsimp only at ih ⊢
    first
    | simp only [dite_eq_ite] at ih
    | skip
    rw [ih]
    split <;> rfl

/-- Every page-log entry the seed loop appends with a positive
structured-extraction count has `genericRan = false`. -/
theorem seedLoop_pageLog (env : CrawlEnv) (maxPages : Nat) :
    ∀ pending st,
      (∀ e ∈ st.pageLog, 1 ≤ e.structuredCount → e.genericRan = false) →
      ∀ e ∈ (seedLoop env maxPages pending st).pageLog,
        1 ≤ e.structuredCount → e.genericRan = false := by
  intro pending st
  induction pending, st using seedLoop.induct env maxPages with
  | case1 st => intro hgood; simpa [seedLoop] using hgood
  | case2 st seed rest hb => intro hgood; simpa [seedLoop, hb] using hgood
  | case3 st seed rest hb checked hc stats1 stats2 ih =>
    intro hgood e he
    rw [seedLoop.eq_def] at he
    dsimp only at he
    rw [dif_neg hb] at he
    unfold_let checked at hc
    rw [if_pos hc] at he
    unfold_let checked stats1 stats2 at ih
    dsimp only at ih he
    first
    | simp only [dite_eq_ite] at ih
    | skip
    exact ih hgood e he
  | case4 st seed rest hb checked hc reason hf stats1 stats2 ih =>
    intro hgood e he
    rw [seedLoop.eq_def] at he
    dsimp only at he
    rw [dif_neg hb] at he
    unfold_let checked at hc
    rw [if_neg (by simp [hc])] at he
    rw [hf] at he
    dsimp only at he
    unfold_let checked stats1 stats2 at ih
    dsimp only at ih he
    first
    | simp only [dite_eq_ite] at ih
    | skip
    exact ih hgood e he
  | case5 st seed rest hb checked hc res snd hf stats1 jl hjl stats2 ih =>
    intro hgood e he
    rw [seedLoop.eq_def] at he
    dsimp only at he
    rw [dif_neg hb] at he
    unfold_let checked at hc
    rw [if_neg (by simp [hc])] at he
    rw [hf] at he
    dsimp only at he
    unfold_let jl at hjl
    rw [if_pos hjl] at he
    unfold_let checked stats1 jl stats2 at ih
    dsimp only at ih he
    first
    | simp only [dite_eq_ite] at ih
    | skip
    refine ih ?_ e he
    intro e2 he2
    rcases List.mem_append.mp he2 with h1 | h1
    · exact hgood e2 h1
    · simp only [List.mem_singleton] at h1
      subst h1
      intro
      rfl
  | case6 st seed rest hb checked hc res snd hf stats1 jl hjl newSeeds gres stats2 ih =>
    intro hgood e he
    rw [seedLoop.eq_def] at he
    dsimp only at he
    rw [dif_neg hb] at he
    unfold_let checked at hc
    rw [if_neg (by simp [hc])] at he
    rw [hf] at he
    dsimp only at he
    unfold_let jl at hjl
    rw [if_neg hjl] at he
    unfold_let checked stats1 jl newSeeds gres stats2 at ih
    dsimp only at ih he
    first
    | simp only [dite_eq_ite] at ih
    | skip
    refine ih ?_ e he
    intro e2 he2
    rcases List.mem_append.mp he2 with h1 | h1
    · exact hgood e2 h1
    · simp only [List.mem_singleton] at h1
      subst h1
      intro habs
      exfalso
      have hjl0 : env.jsonld res.html res.final_url = [] := by
        by_contra hne
        exact hjl hne
      simp [hjl0] at habs

/-- The discovery phase keeps the stats domain and finishes with
`jobs_found` equal to the number of returned postings. -/
theorem discoveryPhase_consistency (env : CrawlEnv) (domain : String)
    (maxPages : Nat) (stats0 : CrawlStats) :
    (discoveryPhase env domain maxPages stats0).stats.domain = stats0.domain
    ∧ (discoveryPhase env domain maxPages stats0).stats.jobs_found
        = (discoveryPhase env domain maxPages stats0).jobs.length := by
  refine ⟨?_, rfl⟩
  show (seedLoop env maxPages _ _).stats.domain = stats0.domain
  rw [seedLoop_domain]
  dsimp only
  repeat' split
  all_goals rfl

/-- Every page-log entry of the discovery phase with a positive
structured count has `genericRan = false`. -/
theorem discoveryPhase_pageLog (env : CrawlEnv) (domain : String)
    (maxPages : Nat) (stats0 : CrawlStats) :
    ∀ e ∈ (discoveryPhase env domain maxPages stats0).pageLog,
      1 ≤ e.structuredCount → e.genericRan = false := by
  intro e he
  exact seedLoop_pageLog env maxPages _ _ (by simp) e he

/-- C10: stats/postings consistency — on every exit path of
`crawl_domain` (robots denial at the root, base-fetch failure, ATS
shortcut, seed-loop completion) the returned stats record carries the
input domain in its `domain` field and `jobs_found` equals the length of
the returned postings list. -/
theorem crawl_stats_consistency (env : CrawlEnv) (domain : String) (maxPages : Nat) :
    (crawlDomain env domain maxPages).stats.domain = domain
    ∧ (crawlDomain env domain maxPages).stats.jobs_found
        = (crawlDomain env domain maxPages).jobs.length := by
  unfold crawlDomain
  dsimp only
  split
  · exact ⟨rfl, rfl⟩
  · split
    · exact ⟨rfl, rfl⟩
    · rename_i res snd hf
      split
      · rename_i stats jobs heq
        split at heq
        · simp at heq
        · rename_i m
          split at heq
          · simp only [Prod.mk.injEq, Option.some.injEq] at heq
            obtain ⟨hs, hj⟩ := heq
            subst hs
            subst hj
            exact ⟨rfl, rfl⟩
          · simp at heq
      · rename_i stats heq
        have hdom : stats.domain = domain := by
          split at heq
          · simp only [Prod.mk.injEq] at heq
            obtain ⟨hs, -⟩ := heq
            subst hs
            rfl
          · rename_i m
            split at heq
            · simp at heq
            · simp only [Prod.mk.injEq] at heq
              obtain ⟨hs, -⟩ := heq
              subst hs
              rfl
        exact ⟨(discoveryPhase_consistency env domain maxPages stats).1.trans hdom,
               (discoveryPhase_consistency env domain maxPages stats).2⟩

/-- C6: on every fetched seed page for which the JSON-LD extractor yields
at least one posting, `crawl_domain` does not run the generic extractor on
that page — the page log marks every such page `genericRan = false`, so no
page contributes postings from both strategies. -/
theorem structured_suppresses_generic (env : CrawlEnv) (domain : String) (maxPages : Nat) :
    ∀ e ∈ (crawlDomain env domain maxPages).pageLog,
      1 ≤ e.structuredCount → e.genericRan = false := by
  intro e he
  unfold crawlDomain at he
  dsimp only at he
  split at he
  · simp at he
  · split at he
    · simp at he
    · split at he
      · simp at he
      · exact discoveryPhase_pageLog env domain maxPages _ e he

/-- A concrete posting used by the witness environments. -/
def samplePosting : JobPosting :=
  ⟨"123", "Test", "example.com", "Dev", "https://example.com/jobs/1",
   none, none, none, none, "jsonld", [], "ts"⟩

/-- Witness environment for C6: robots allow everything, the root page
carries no ATS fingerprint, discovery yields one careers seed, the
sitemap fetch fails, and the careers page yields one structured
(JSON-LD) posting. -/
def structuredEnv : CrawlEnv := {
  host := fun _ => "example.com"
  robotsNet := fun _ => .content (fun _ => true)
  fetch := fun u =>
    if u = "https://example.com/sitemap.xml" then (none, some "http_404")
    else (some ⟨200, u, "page"⟩, none)
  detectAts := fun _ _ => none
  fetchAts := fun _ => ([], none)
  discoverPaths := fun _ => ["https://example.com/careers"]
  parseSitemap := fun _ _ => []
  jsonld := fun _ u => if u = "https://example.com/careers" then [samplePosting] else []
  filterDiscovery := fun _ _ => []
  generic := fun _ _ => ([], []) }

/-- C6 witness: in `structuredEnv` the careers page yields one structured
posting and the page log shows the generic extractor was not run on it. -/
theorem structured_suppresses_generic_witness :
    (⟨"https://example.com/careers", 1, false⟩ : PageLogEntry) ∈
        (crawlDomain structuredEnv "example.com" 5).pageLog
    ∧ (⟨"https://example.com/careers", 1, false⟩ : PageLogEntry).genericRan = false := by
  have hlog : (crawlDomain structuredEnv "example.com" 5).pageLog
      = [⟨"https://example.com/careers", 1, false⟩] := by
    simp +decide [crawlDomain, discoveryPhase, structuredEnv, envCanFetchDetail,
      robotsFetchParser, readParser, canFetchDetailP, stdCanFetch, dedupKeepFirst,
      initStats, seedLoop.eq_def, samplePosting]
  have hmem : (⟨"https://example.com/careers", 1, false⟩ : PageLogEntry) ∈
      (crawlDomain structuredEnv "example.com" 5).pageLog := by
    rw [hlog]
    exact List.mem_singleton.mpr rfl
  exact ⟨hmem,
    structured_suppresses_generic structuredEnv "example.com" 5 _ hmem (by decide)⟩

/-- C1 (amended): for a domain whose robots.txt fetch succeeds and whose
parsed rules deny every URL (a blanket `Disallow: /` for all agents),
`crawl_domain` returns an empty postings list and performs no page fetch
beyond the robots file itself — but, because `RobotFileParser.parse`
never sets the `disallow_all` flag that `can_fetch_detail` consults (the
flag is only set when the robots fetch returns HTTP 401/403), the denial
reason is `blocked_by_robots` and `skipped_reason` is set to the
path-rule constant `ROBOTS_DISALLOW_URL`, not to `"Disallow: /"`. -/
theorem blanket_disallow_crawl (env : CrawlEnv) (domain : String) (maxPages : Nat)
    (e : String → Bool)
    (hro : env.robotsNet (env.host ("https://" ++ domain)) = ReadOutcome.content e)
    (he : ∀ u, e u = false) :
    (crawlDomain env domain maxPages).jobs = []
    ∧ (crawlDomain env domain maxPages).fetched = []
    ∧ (crawlDomain env domain maxPages).stats.skipped_reason = some ROBOTS_DISALLOW_URL
    ∧ (crawlDomain env domain maxPages).stats.robots_rule_hit = some "blocked_by_robots"
    ∧ (crawlDomain env domain maxPages).stats.first_blocked_url = some ("https://" ++ domain)
    ∧ (crawlDomain env domain maxPages).stats.pages_fetched = 0
    ∧ (crawlDomain env domain maxPages).stats.jobs_found = 0 := by
  have hch : envCanFetchDetail env ("https://" ++ domain)
      = (false, some "blocked_by_robots") := by
    unfold envCanFetchDetail
    rw [hro]
    simp [robotsFetchParser, readParser, canFetchDetailP, stdCanFetch, he]
  unfold crawlDomain
  dsimp only
  rw [hch]
  simp +decide [initStats, ROBOTS_DISALLOW_URL, ROBOTS_DISALLOW_ALL]

/-- Environment of C1's concrete input: every domain's robots.txt fetch
succeeds and parses to a rule set denying every URL (the parse of
`User-agent: *` / `Disallow: /`). -/
def blanketEnv : CrawlEnv := {
  host := fun _ => "example.com"
  robotsNet := fun _ => .content (fun _ => false)
  fetch := fun _ => (none, none)
  detectAts := fun _ _ => none
  fetchAts := fun _ => ([], none)
  discoverPaths := fun _ => []
  parseSitemap := fun _ _ => []
  jsonld := fun _ _ => []
  filterDiscovery := fun _ _ => []
  generic := fun _ _ => ([], []) }

/-- C1 counterexample: for a domain whose robots.txt parses and contains
a blanket disallow, the crawl does return zero postings with no fetch,
but `skipped_reason` is the path-rule constant (`blocked_by_robots`
classification), not `"Disallow: /"` as the claim states — the
`"Disallow: /"` reason arises only from an HTTP 401/403 on the robots
file, because `RobotFileParser.parse` never sets `disallow_all`. -/
theorem blanket_disallow_counterexample :
    (crawlDomain blanketEnv "example.com" 5).stats.skipped_reason
        = some ROBOTS_DISALLOW_URL
    ∧ (crawlDomain blanketEnv "example.com" 5).stats.robots_rule_hit
        = some "blocked_by_robots"
    ∧ (crawlDomain blanketEnv "example.com" 5).jobs = []
    ∧ (crawlDomain blanketEnv "example.com" 5).fetched = []
    ∧ ROBOTS_DISALLOW_URL ≠ "Disallow: /" := by
  refine ⟨rfl, rfl, rfl, rfl, by decide⟩

/-- C1 witness: the amended claim instantiated at the concrete
blanket-deny environment. -/
theorem blanket_disallow_crawl_witness :
    (crawlDomain blanketEnv "example.com" 5).jobs = []
    ∧ (crawlDomain blanketEnv "example.com" 5).fetched = []
    ∧ (crawlDomain blanketEnv "example.com" 5).stats.skipped_reason
        = some ROBOTS_DISALLOW_URL
    ∧ (crawlDomain blanketEnv "example.com" 5).stats.robots_rule_hit
        = some "blocked_by_robots"
    ∧ (crawlDomain blanketEnv "example.com" 5).stats.first_blocked_url
        = some ("https://" ++ "example.com")
    ∧ (crawlDomain blanketEnv "example.com" 5).stats.pages_fetched = 0
    ∧ (crawlDomain blanketEnv "example.com" 5).stats.jobs_found = 0 :=
  blanket_disallow_crawl blanketEnv "example.com" 5 (fun _ => false) rfl (fun _ => rfl)

/-- The generic-extractor loop only ever appends to its outcome and
error logs. -/
theorem genericLoop_mono (env : GenEnv) (company : Company) (crawlTs : String)
    (errsSupplied : Bool) :
    ∀ cands seen acc,
      (∀ x ∈ acc.outcomes,
        x ∈ (genericLoop env company crawlTs errsSupplied cands seen acc).outcomes)
      ∧ (∀ x ∈ acc.errors,
        x ∈ (genericLoop env company crawlTs errsSupplied cands seen acc).errors) := by
  intro cands
  induction cands with
  | nil =>
    intro seen acc
    constructor <;> (intro x hx; simpa [genericLoop] using hx)
  | cons u rest ih =>
    intro seen acc
    simp only [genericLoop]
    split
    · exact ⟨fun x hx => (ih seen _).1 x (by simp [hx]),
             fun x hx => (ih seen _).2 x (by cases errsSupplied <;> simp [hx])⟩
    · split
      · exact ⟨fun x hx => (ih seen _).1 x (by simp [hx]),
               fun x hx => (ih seen _).2 x (by cases errsSupplied <;> simp [hx])⟩
      · split
        · exact ⟨fun x hx => (ih seen _).1 x (by simp [hx]),
                 fun x hx => (ih seen _).2 x (by simp [hx])⟩
        · split
          · exact ⟨fun x hx => (ih seen _).1 x (by simp [hx]),
                   fun x hx => (ih seen _).2 x (by simp [hx])⟩
          · split
            · exact ⟨fun x hx => (ih seen _).1 x (by simp [hx]),
                     fun x hx => (ih seen _).2 x (by cases errsSupplied <;> simp [hx])⟩
            · exact ⟨fun x hx => (ih _ _).1 x (by simp [hx]),
                     fun x hx => (ih _ _).2 x (by simp [hx])⟩

/-- Every URL the generic-extractor loop fetches comes from a candidate
that passed both the listing-path filter and the non-job filter. -/
theorem genericLoop_fetched_src (env : GenEnv) (company : Company) (crawlTs : String)
    (errsSupplied : Bool) :
    ∀ cands seen acc f,
      f ∈ (genericLoop env company crawlTs errsSupplied cands seen acc).fetched →
      f ∈ acc.fetched ∨
        ∃ v, v ∈ cands ∧ v.full = f ∧ isListingUrl v = false ∧ isNonJobUrl v = false := by
  intro cands
  induction cands with
  | nil =>
    intro seen acc f hf
    simp only [genericLoop] at hf
    exact Or.inl hf
  | cons u rest ih =>
    intro seen acc f hf
    simp only [genericLoop] at hf
    have step :
        ∀ seen2 acc2, acc2.fetched = acc.fetched →
          f ∈ (genericLoop env company crawlTs errsSupplied rest seen2 acc2).fetched →
          f ∈ acc.fetched ∨
            ∃ v, v ∈ u :: rest ∧ v.full = f ∧ isListingUrl v = false ∧ isNonJobUrl v = false := by
      intro seen2 acc2 hacc hf2
      rcases ih seen2 acc2 f hf2 with h | ⟨v, hv, hvf, hvl, hvn⟩
      · exact Or.inl (hacc ▸ h)
      · exact Or.inr ⟨v, List.mem_cons_of_mem _ hv, hvf, hvl, hvn⟩
    split at hf
    · exact step _ _ (by rfl) hf
    · rename_i hlist
      split at hf
      · exact step _ _ (by rfl) hf
      · rename_i hnj
        split at hf
        · exact step _ _ (by rfl) hf
        · have hl : isListingUrl u = false := by
            revert hlist; cases isListingUrl u <;> simp
          have hn : isNonJobUrl u = false := by
            revert hnj; cases isNonJobUrl u <;> simp
          have step2 :
              ∀ seen2 acc2, acc2.fetched = acc.fetched ++ [u.full] →
                f ∈ (genericLoop env company crawlTs errsSupplied rest seen2 acc2).fetched →
                f ∈ acc.fetched ∨
                  ∃ v, v ∈ u :: rest ∧ v.full = f ∧ isListingUrl v = false ∧
                      isNonJobUrl v = false := by
            intro seen2 acc2 hacc hf2
            rcases ih seen2 acc2 f hf2 with h | ⟨v, hv, hvf, hvl, hvn⟩
            · rw [hacc] at h
              rcases List.mem_append.mp h with h | h
              · exact Or.inl h
              · simp only [List.mem_singleton] at h
                exact Or.inr ⟨u, List.mem_cons_self _ _, h.symm, hl, hn⟩
            · exact Or.inr ⟨v, List.mem_cons_of_mem _ hv, hvf, hvl, hvn⟩
          split at hf
          · exact step2 _ _ (by rfl) hf
          · split at hf
            · exact step2 _ _ (by rfl) hf
            · exact step2 _ _ (by rfl) hf

/-- For a candidate in the list that is not a listing URL but carries a
non-job marker, the loop records the `skippedNonJob` outcome and, when an
errors list is supplied, the `non_job_url_skipped` tag. -/
theorem genericLoop_nonjob_mem (env : GenEnv) (company : Company) (crawlTs : String)
    (errsSupplied : Bool) :
    ∀ cands seen acc (u : Url), u ∈ cands →
      isListingUrl u = false → isNonJobUrl u = true →
      ((u, COutcome.skippedNonJob) ∈
          (genericLoop env company crawlTs errsSupplied cands seen acc).outcomes)
      ∧ (errsSupplied = true →
          "non_job_url_skipped" ∈
            (genericLoop env company crawlTs errsSupplied cands seen acc).errors) := by
  intro cands
  induction cands with
  | nil => intro seen acc u hu; simp at hu
  | cons w rest ih =>
    intro seen acc u hu hl hn
    rcases List.mem_cons.mp hu with rfl | hu2
    · simp only [genericLoop]
      rw [if_neg (by simp [hl]), if_pos hn]
      constructor
      · exact (genericLoop_mono env company crawlTs errsSupplied rest seen _).1
          (u, COutcome.skippedNonJob) (by simp)
      · intro he
        subst he
        exact (genericLoop_mono env company crawlTs true rest seen _).2
          "non_job_url_skipped" (by simp)
    · simp only [genericLoop]
      split
      · exact ih _ _ u hu2 hl hn
      · split
        · exact ih _ _ u hu2 hl hn
        · split
          · exact ih _ _ u hu2 hl hn
          · split
            · exact ih _ _ u hu2 hl hn
            · split
              · exact ih _ _ u hu2 hl hn
              · exact ih _ _ u hu2 hl hn

/-- C8 (amended): a generic-extraction candidate URL that is not itself a
listing-path URL and whose query carries a faceted-listing marker is
classified `skippedNonJob` — filtered out before any fetch attempt — and
its URL is never fetched; when (and only when) the caller supplies an
errors list, the skip is recorded there as `non_job_url_skipped`.
(`crawl_domain` supplies no errors list — see the C8 counterexample —
and a URL like `/jobs?department_id=3`, whose path is itself a known
listing path, is instead caught first by the listing filter and tagged
`listing_url_skipped`.) -/
theorem nonjob_query_filtered (env : GenEnv) (company : Company) (crawlTs : String)
    (errsSupplied : Bool) (html baseUrl : String) (u : Url)
    (hu : u ∈ (discoverJobLinks env html baseUrl).take 20)
    (hl : isListingUrl u = false) (hn : isNonJobUrl u = true)
    (huniq : ∀ v ∈ (discoverJobLinks env html baseUrl).take 20,
        v.full = u.full → isListingUrl v = false ∧ isNonJobUrl v = true) :
    ((u, COutcome.skippedNonJob) ∈
        (extractJobsGeneric env company crawlTs errsSupplied html baseUrl).outcomes)
    ∧ (u.full ∉ (extractJobsGeneric env company crawlTs errsSupplied html baseUrl).fetched)
    ∧ (errsSupplied = true →
        "non_job_url_skipped" ∈
          (extractJobsGeneric env company crawlTs errsSupplied html baseUrl).errors) := by
  have hmem := genericLoop_nonjob_mem env company crawlTs errsSupplied
    ((discoverJobLinks env html baseUrl).take 20) [] ⟨[], [], [], []⟩ u hu hl hn
  refine ⟨hmem.1, ?_, hmem.2⟩
  intro hf
  rcases genericLoop_fetched_src env company crawlTs errsSupplied
      ((discoverJobLinks env html baseUrl).take 20) [] ⟨[], [], [], []⟩ u.full hf with
    h | ⟨v, hv, hvf, hvl, hvn⟩
  · simp at h
  · exact absurd (huniq v hv hvf).2 (by simp [hvn])

def testCompany : Company := ⟨"123", "Test", "example.com"⟩

/-- Witness environment for C8 (amended): one anchor whose URL path is
not a listing path but whose query carries the faceted marker
`department_id=`. -/
def witGenEnv : GenEnv := {
  anchors := fun _ => [("/positions/all?department_id=3", "Apply")]
  joinUrl := fun _ _ =>
    ⟨"https://example.com/positions/all?department_id=3", "/positions/all",
     "department_id=3"⟩
  fetch := fun _ => (none, none)
  titleText := fun _ => ""
  bodyText := fun _ => ""
  h1Text := fun _ => none
  detectTags := fun _ => [] }

/-- C8 witness: the amended claim at the concrete candidate
`/positions/all?department_id=3`. -/
theorem nonjob_query_filtered_witness :
    ((⟨"https://example.com/positions/all?department_id=3", "/positions/all",
        "department_id=3"⟩ : Url), COutcome.skippedNonJob) ∈
        (extractJobsGeneric witGenEnv testCompany "ts" true "h" "b").outcomes
    ∧ "https://example.com/positions/all?department_id=3" ∉
        (extractJobsGeneric witGenEnv testCompany "ts" true "h" "b").fetched
    ∧ "non_job_url_skipped" ∈
        (extractJobsGeneric witGenEnv testCompany "ts" true "h" "b").errors := by
  have h := nonjob_query_filtered witGenEnv testCompany "ts" true "h" "b"
    ⟨"https://example.com/positions/all?department_id=3", "/positions/all",
     "department_id=3"⟩
    (by decide) (by decide) (by decide) (by decide)
  exact ⟨h.1, h.2.1, h.2.2 rfl⟩

/-- Environment of C8's concrete input: the page links to the spec's
example URL `/jobs?department_id=3`. -/
def facetGenEnv : GenEnv := {
  anchors := fun _ => [("/jobs?department_id=3", "Apply")]
  joinUrl := fun _ _ =>
    ⟨"https://example.com/jobs?department_id=3", "/jobs", "department_id=3"⟩
  fetch := fun _ => (none, none)
  titleText := fun _ => ""
  bodyText := fun _ => ""
  h1Text := fun _ => none
  detectTags := fun _ => [] }

/-- Crawl environment whose generic-extractor oracle is the embedded
`extract_jobs_generic` called the way pipeline.py lines 183–192 call it —
without supplying an errors list. -/
def facetCrawlEnv : CrawlEnv := {
  host := fun _ => "example.com"
  robotsNet := fun _ => .content (fun _ => true)
  fetch := fun u =>
    if u = "https://example.com/sitemap.xml" then (none, some "http_404")
    else (some ⟨200, u, "listing"⟩, none)
  detectAts := fun _ _ => none
  fetchAts := fun _ => ([], none)
  discoverPaths := fun _ => ["https://example.com/careers"]
  parseSitemap := fun _ _ => []
  jsonld := fun _ _ => []
  filterDiscovery := fun _ _ => []
  generic := fun h u =>
    ((extractJobsGeneric facetGenEnv testCompany "ts" false h u).jobs,
     (extractJobsGeneric facetGenEnv testCompany "ts" false h u).fetched) }

/-- C8 counterexample: for the spec's own example candidate
`/jobs?department_id=3`, the URL is indeed never fetched, but the skip is
tagged `listing_url_skipped` (its path `/jobs` is a known listing path,
checked before the faceted-query filter), not `non_job_url_skipped`; and
the per-domain crawl records nothing at all, because `crawl_domain` does
not pass an errors list to the generic extractor. -/
theorem facet_url_counterexample :
    (extractJobsGeneric facetGenEnv testCompany "ts" true "listing"
        "https://example.com/careers").errors = ["listing_url_skipped"]
    ∧ "non_job_url_skipped" ∉
        (extractJobsGeneric facetGenEnv testCompany "ts" true "listing"
          "https://example.com/careers").errors
    ∧ (extractJobsGeneric facetGenEnv testCompany "ts" true "listing"
        "https://example.com/careers").fetched = []
    ∧ (crawlDomain facetCrawlEnv "example.com" 5).stats.errors = [] := by
  refine ⟨rfl, by decide, rfl, ?_⟩
  simp +decide [crawlDomain, discoveryPhase, facetCrawlEnv, envCanFetchDetail,
    robotsFetchParser, readParser, canFetchDetailP, stdCanFetch, dedupKeepFirst,
    initStats, seedLoop.eq_def]

/-- Environment of C7's concrete input: the listing page links to a
detail page that is a cookie-consent wall (six distinct consent-keyword
hits, among them both "cookie" and "consent"). -/
def consentGenEnv : GenEnv := {
  anchors := fun _ => [("/jobs/1", "Apply")]
  joinUrl := fun _ _ => ⟨"https://example.com/jobs/1", "/jobs/1", ""⟩
  fetch := fun u =>
    if u = "https://example.com/jobs/1" then
      (some ⟨200, "https://example.com/jobs/1", "consent"⟩, none)
    else (none, none)
  titleText := fun h => if h = "consent" then "Valitse evästeet" else ""
  bodyText := fun h => if h = "consent" then "Hyväksy evästeet cookie consent" else ""
  h1Text := fun _ => none
  detectTags := fun _ => [] }

/-- Crawl environment composing `crawl_domain` with the embedded generic
extractor exactly as pipeline.py lines 183–192 call it (no errors list). -/
def consentCrawlEnv : CrawlEnv := {
  host := fun _ => "example.com"
  robotsNet := fun _ => .content (fun _ => true)
  fetch := fun u =>
    if u = "https://example.com/sitemap.xml" then (none, some "http_404")
    else (some ⟨200, u, "listing"⟩, none)
  detectAts := fun _ _ => none
  fetchAts := fun _ => ([], none)
  discoverPaths := fun _ => ["https://example.com/careers"]
  parseSitemap := fun _ _ => []
  jsonld := fun _ _ => []
  filterDiscovery := fun _ _ => []
  generic := fun h u =>
    ((extractJobsGeneric consentGenEnv testCompany "ts" false h u).jobs,
     (extractJobsGeneric consentGenEnv testCompany "ts" false h u).fetched) }

/-- C7: a consent-walled detail page contributes no posting (that part of
the claim holds), and the extractor appends `cookie_consent` when a
caller supplies an errors list — but `crawl_domain` supplies none
(pipeline.py lines 183–192 pass no `errors=`), so the per-domain crawl's
stats record no `cookie_consent` error: its error list stays empty on
this input. -/
theorem cookie_consent_not_recorded :
    (extractJobsGeneric consentGenEnv testCompany "ts" true "listing"
        "https://example.com/careers").jobs = []
    ∧ (extractJobsGeneric consentGenEnv testCompany "ts" true "listing"
        "https://example.com/careers").errors = ["cookie_consent"]
    ∧ (extractJobsGeneric consentGenEnv testCompany "ts" false "listing"
        "https://example.com/careers").errors = []
    ∧ (crawlDomain consentCrawlEnv "example.com" 5).jobs = []
    ∧ (crawlDomain consentCrawlEnv "example.com" 5).stats.errors = [] := by
  refine ⟨rfl, rfl, rfl, ?_, ?_⟩ <;>
  simp +decide [crawlDomain, discoveryPhase, consentCrawlEnv, envCanFetchDetail,
    robotsFetchParser, readParser, canFetchDetailP, stdCanFetch, dedupKeepFirst,
    initStats, seedLoop.eq_def]

end Apprscan

